import Mathlib

/-!
Verification of the partial, resumable graph execution engine
(partial_graph_execution_state.h, training_agent.h) and the
ZeroPointErase CUDA kernel (zero_point_erase.cc).

The two headers declare the engine's data model; the bodies of
GetProgramRegions, GetExecutionContext, RunForward, RunBackward and the
ExecutionContext dispatch loop are in translation units outside the given
sources, so those operations are modelled from the specification's own
description of them (each such definition carries a doc comment starting
with "Modelled from the spec:").  ZeroPointErase::ComputeInternal is given
in full and is embedded line by line.

OrtValue is abstracted as a natural number; value names are strings, as in
the OrtValueCache typedef (unordered_map<string, OrtValue>).
-/

set_option autoImplicit false

namespace OnnxPartialExec

/-- Embeds the OrtValueCache typedef of partial_graph_execution_state.h
(line 13): a map from value name to materialized value, modelled as an
association list where the most recent write is the first binding. -/
abbrev Cache := List (String × Nat)

/-- Status taxonomy of the engine, from spec section 7.  `OK` is the
success status of common::Status. -/
inductive Status where
  | OK : Status
  | InvalidRange : Status
  | InvalidState : Status
  | NodeExecutionFailure : Nat → Status
  | Cancelled : Status
  | AllocationFailure : Status
deriving DecidableEq

/-- Embeds PartialGraphExecutionState::ProgramRegion
(partial_graph_execution_state.h lines 28-33): a node window together with
one program-counter sub-range per stream. -/
structure ProgramRegion where
  node_start : Nat
  node_end : Nat
  stream_pc_range : List (Nat × Nat)
deriving DecidableEq

/-- Modelled from the spec: the external Execution Plan (spec section 2):
an ordered node list partitioned into per-stream program-counter
sequences; `streams` lists, per stream and in program-counter order, the
underlying node index of each per-stream program counter. Read-only. -/
structure Plan where
  node_count : Nat
  streams : List (List Nat)
deriving DecidableEq

/-- Modelled from the spec: the per-stream sub-range of program counters
whose underlying node index falls in [node_start, node_end), obtained by
scanning the stream's node list once (spec section 4.1). -/
def streamRange (nodes : List Nat) (ns ne : Nat) : Nat × Nat :=
  let idxs := (List.range nodes.length).filter
    (fun i => decide (ns ≤ nodes.getD i 0) && decide (nodes.getD i 0 < ne))
  match idxs with
  | [] => (0, 0)
  | i :: rest => (i, (i :: rest).getLastD 0 + 1)

/-- Modelled from the spec: compute a Program Region for the window
[ns, ne) by deriving each stream's program-counter sub-range from the
plan (spec section 4.1); deterministic and side-effect-free. -/
def computeRegion (plan : Plan) (ns ne : Nat) : ProgramRegion :=
  { node_start := ns
    node_end := ne
    stream_pc_range := plan.streams.map (fun s => streamRange s ns ne) }

/-- Embeds struct PartialGraphExecutionState
(partial_graph_execution_state.h lines 18-54): the resumable cursor.  The
unique_ptr<ExecutionContext> is abstracted to an Option (the context
itself is transient per-invocation state, spec section 3); the field
defaults embed the member initializers program_counter_start_{0},
program_counter_end_{0} and the constructor's execution_context_(nullptr). -/
structure PartialGraphExecutionState where
  execution_context : Option Unit := none
  program_counter_start : Nat := 0
  program_counter_end : Nat := 0
  program_regions : List ProgramRegion := []
deriving DecidableEq

/-- Embeds the PartialGraphExecutionState default constructor
(partial_graph_execution_state.h lines 20-21 and member defaults). -/
def PartialGraphExecutionState.init : PartialGraphExecutionState := {}

/-- Modelled from the spec: PartialGraphExecutionState::GetProgramRegions
(declared at partial_graph_execution_state.h line 38; its body is outside
the given sources).  Per spec section 4.1: return the cached Program
Region for the exact key (node_start, node_end) if present in
program_regions_, otherwise compute it from the plan and cache it.  A
request with node_start > node_end or a bound beyond the plan's node
count fails with InvalidRange and is never clamped. -/
def getProgramRegions (plan : Plan) (st : PartialGraphExecutionState)
    (ns ne : Nat) : Except Status (ProgramRegion × PartialGraphExecutionState) :=
  if ns > ne ∨ ne > plan.node_count then
    .error .InvalidRange
  else
    match st.program_regions.find? (fun r => r.node_start == ns && r.node_end == ne) with
    | some r => .ok (r, st)
    | none =>
      let r := computeRegion plan ns ne
      .ok (r, { st with program_regions := st.program_regions ++ [r] })

/-- Modelled from the spec: the leaf operator contract of one node (spec
section 6): whether its execute call succeeds, the boundary values it
writes to the value cache during a forward window, and the boundary value
names it reads during a backward window. -/
structure NodeSpec where
  ok : Bool
  writes : List (String × Nat)
  reads : List String

/-- Assignment of a leaf operator behaviour to every node index. -/
abbrev NodeEnv := Nat → NodeSpec

/-- Modelled from the spec: applying one node's produced boundary values
to the shared cache, most recent binding first (spec section 4.2, side
effects). -/
def writeAll (ws : List (String × Nat)) (c : Cache) : Cache :=
  ws.foldl (fun acc p => p :: acc) c

/-- Result of driving one cache-writing window: the nodes dispatched in
order, the chronological log of cache writes, the final cache, and the
invocation status. -/
structure RunOut where
  dispatched : List Nat
  writeLog : List (String × Nat)
  cache : Cache
  status : Status
deriving DecidableEq

/-- Modelled from the spec: the Execution Context dispatch loop for a
cache-writing (forward) window (spec section 4.2; GetExecutionContext is
declared at partial_graph_execution_state.h lines 40-46, its body is
outside the given sources).  The loop walks the window's nodes in
program-counter order; the termination flag is checked cooperatively at
every node-dispatch boundary and nowhere else (`flag k` is its value at
the k-th boundary); a node whose leaf execution succeeds has its boundary
writes applied to the cache; a node whose leaf execution fails stops all
further dispatch with NodeExecutionFailure naming that node. -/
def runWindow (env : NodeEnv) (flag : Nat → Bool) :
    List Nat → Nat → Cache → RunOut
  | [], k, c =>
    if flag k then { dispatched := [], writeLog := [], cache := c, status := .Cancelled }
    else { dispatched := [], writeLog := [], cache := c, status := .OK }
  | n :: rest, k, c =>
    if flag k then { dispatched := [], writeLog := [], cache := c, status := .Cancelled }
    else if (env n).ok then
      let o := runWindow env flag rest (k + 1) (writeAll (env n).writes c)
      { dispatched := n :: o.dispatched
        writeLog := (env n).writes ++ o.writeLog
        cache := o.cache
        status := o.status }
    else { dispatched := [], writeLog := [], cache := c, status := .NodeExecutionFailure n }

/-- Result of driving one cache-consuming window: the nodes dispatched in
order, the log of (name, value observed in the cache) for every boundary
read, and the invocation status. -/
structure RunROut where
  dispatched : List Nat
  readLog : List (String × Option Nat)
  status : Status
deriving DecidableEq

/-- Modelled from the spec: the dispatch loop for a cache-consuming
(backward) window: backward only consumes the cache populated by forward
(spec section 4.4), so nodes read boundary values but never write them;
each successful dispatch records the value observed for every name the
node reads.  Termination and failure behave as in `runWindow`. -/
def runWindowR (env : NodeEnv) (flag : Nat → Bool) (c : Cache) :
    List Nat → Nat → RunROut
  | [], k =>
    if flag k then { dispatched := [], readLog := [], status := .Cancelled }
    else { dispatched := [], readLog := [], status := .OK }
  | n :: rest, k =>
    if flag k then { dispatched := [], readLog := [], status := .Cancelled }
    else if (env n).ok then
      let o := runWindowR env flag c rest (k + 1)
      { dispatched := n :: o.dispatched
        readLog := (env n).reads.map (fun nm => (nm, c.lookup nm)) ++ o.readLog
        status := o.status }
    else { dispatched := [], readLog := [], status := .NodeExecutionFailure n }

/-- Modelled from the spec: the node indices of the window [s, e),
dispatched in program order. -/
def windowNodes (s e : Nat) : List Nat :=
  List.range' s (e - s)

/-- The value a forward window's write log leaves behind for a name: the
most recent write wins, i.e. the first binding of the reversed
(newest-first) log. -/
def lastWritten (wl : List (String × Nat)) (nm : String) : Option Nat :=
  wl.reverse.lookup nm

/-- Result of one full invocation on the Partial Execution State. -/
structure CoreOut where
  st : PartialGraphExecutionState
  dispatched : List Nat
  writeLog : List (String × Nat)
  cache : Cache
  status : Status

/-- Modelled from the spec: one cache-writing invocation driven through
the Partial Execution State (spec section 4.3): record the requested
window end (SetProgramCounterEnd, header line 26), resolve or reuse the
Program Region for [program_counter_start, requested_end), drive the
window's nodes, and on success advance program_counter_start to
requested_end for the next invocation. -/
def runCore (plan : Plan) (env : NodeEnv) (flag : Nat → Bool)
    (requested_end : Nat) (st : PartialGraphExecutionState) (c : Cache) : CoreOut :=
  match getProgramRegions plan st st.program_counter_start requested_end with
  | .error stat => { st := st, dispatched := [], writeLog := [], cache := c, status := stat }
  | .ok (_, st1) =>
    let o := runWindow env flag (windowNodes st.program_counter_start requested_end) 0 c
    { st := { st1 with
        program_counter_end := requested_end
        program_counter_start :=
          if o.status = .OK then requested_end else st1.program_counter_start }
      dispatched := o.dispatched
      writeLog := o.writeLog
      cache := o.cache
      status := o.status }

/-- Result of one cache-consuming invocation on the Partial Execution
State. -/
structure CoreROut where
  st : PartialGraphExecutionState
  dispatched : List Nat
  readLog : List (String × Option Nat)
  status : Status

/-- Modelled from the spec: one cache-consuming invocation driven through
the Partial Execution State; identical to `runCore` except that the
window's nodes read the shared cache instead of writing it (spec section
4.4). -/
def runCoreR (plan : Plan) (env : NodeEnv) (flag : Nat → Bool)
    (requested_end : Nat) (st : PartialGraphExecutionState) (c : Cache) : CoreROut :=
  match getProgramRegions plan st st.program_counter_start requested_end with
  | .error stat => { st := st, dispatched := [], readLog := [], status := stat }
  | .ok (_, st1) =>
    let o := runWindowR env flag c (windowNodes st.program_counter_start requested_end) 0
    { st := { st1 with
        program_counter_end := requested_end
        program_counter_start :=
          if o.status = .OK then requested_end else st1.program_counter_start }
      dispatched := o.dispatched
      readLog := o.readLog
      status := o.status }

/-- Embeds the TrainingAgent window fields fw_program_counter_end_ and
bw_program_counter_end_ (training_agent.h lines 55-56) together with the
shared, read-only plan of the underlying session. -/
structure TrainingAgent where
  plan : Plan
  fw_program_counter_end : Nat
  bw_program_counter_end : Nat

/-- Modelled from the spec: agent construction fixes the two
complementary windows over one shared plan: forward targets
[0, fw_program_counter_end) and backward targets
[fw_program_counter_end, total_node_count) (spec section 4.4). -/
def mkTrainingAgent (plan : Plan) (fw_end : Nat) : TrainingAgent :=
  { plan := plan
    fw_program_counter_end := fw_end
    bw_program_counter_end := plan.node_count }

/-- Modelled from the spec: the per-step lifecycle phase of one state
instance (spec section 4.4 state machine; the transient Running phases
collapse in this sequential model). -/
inductive Phase where
  | Fresh : Phase
  | ForwardDone : Phase
  | BackwardDone : Phase
  | Failed : Phase
deriving DecidableEq

/-- Modelled from the spec: one logical training step: the state
instance, its lifecycle phase, and the value cache shared by reference
between the step's forward and backward invocations (spec sections 3,
4.4). -/
structure AgentStep where
  pes : PartialGraphExecutionState := PartialGraphExecutionState.init
  phase : Phase := .Fresh
  cache : Cache := []

/-- Result of TrainingAgent::RunForward in the model. -/
structure FwOut where
  state : AgentStep
  dispatched : List Nat
  writeLog : List (String × Nat)
  status : Status

/-- Modelled from the spec: TrainingAgent::RunForward (declared at
training_agent.h lines 32-33; its body is outside the given sources).
Per spec sections 4.4 and 9 the state machine is strictly linear, so a
non-Fresh instance is rejected with InvalidState and nothing is
dispatched.  Otherwise the forward window
[program_counter_start, fw_program_counter_end) is driven, writing
boundary values to the caller-supplied cache; success moves the instance
to ForwardDone and stores the populated cache reference in the step,
any failure moves it to Failed. -/
def runForward (env : NodeEnv) (flag : Nat → Bool) (ag : TrainingAgent)
    (s : AgentStep) (c : Cache) : FwOut :=
  if s.phase = .Fresh then
    let co := runCore ag.plan env flag ag.fw_program_counter_end s.pes c
    { state := { pes := co.st
                 phase := if co.status = .OK then .ForwardDone else .Failed
                 cache := co.cache }
      dispatched := co.dispatched
      writeLog := co.writeLog
      status := co.status }
  else
    { state := s, dispatched := [], writeLog := [], status := .InvalidState }

/-- Result of TrainingAgent::RunBackward in the model. -/
structure BwOut where
  state : AgentStep
  dispatched : List Nat
  readLog : List (String × Option Nat)
  status : Status

/-- Modelled from the spec: TrainingAgent::RunBackward (declared at
training_agent.h lines 36-37; its body is outside the given sources).
Backward must follow a successful forward on the same state instance: on
any other phase it is a usage error reported as InvalidState with no node
dispatched (spec section 4.4).  Otherwise it drives the window up to
bw_program_counter_end, consuming the cache populated by forward (backward
takes no cache argument); success reaches the terminal BackwardDone. -/
def runBackward (env : NodeEnv) (flag : Nat → Bool) (ag : TrainingAgent)
    (s : AgentStep) : BwOut :=
  if s.phase = .ForwardDone then
    let co := runCoreR ag.plan env flag ag.bw_program_counter_end s.pes s.cache
    { state := { pes := co.st
                 phase := if co.status = .OK then .BackwardDone else .Failed
                 cache := s.cache }
      dispatched := co.dispatched
      readLog := co.readLog
      status := co.status }
  else
    { state := s, dispatched := [], readLog := [], status := .InvalidState }

/-- A concrete four-node, two-stream plan used to exercise the model. -/
def samplePlan : Plan :=
  { node_count := 4, streams := [[0, 1], [2, 3]] }

/-- A concrete leaf environment: every node succeeds, node 1 writes the
boundary value "act1" during forward, node 3 reads it during backward. -/
def sampleEnv : NodeEnv := fun n =>
  { ok := true
    writes := if n = 1 then [("act1", 5)] else []
    reads := if n = 3 then ["act1"] else [] }

/-- A concrete leaf environment where node 1 fails its leaf execution. -/
def sampleFailEnv : NodeEnv := fun n =>
  { ok := !(n == 1), writes := [], reads := [] }

/-- A termination flag that is never set. -/
def noFlag : Nat → Bool := fun _ => false

/-- A termination flag that is already set at the first dispatch
boundary. -/
def setFlag : Nat → Bool := fun _ => true

/-- Modelled from the spec: kNumBitsPerBitmaskElement, the bit width of
one bitmask element.  The constant's definition lives in an orttraining
bitmask header outside the given sources; it is the digit count of the
32-bit unsigned BitmaskElementType used for the mask output. -/
def kNumBitsPerBitmaskElement : Nat := 32

/-- Embeds line 96 of zero_point_erase.cc: the element count of the mask
output, computed as
(total_element_count + kNumBitsPerBitmaskElement - 1) / kNumBitsPerBitmaskElement
in exact integer arithmetic; a tensor's total element count is
non-negative, so it is carried as a natural number. -/
def mask_element_count (total_element_count : Nat) : Nat :=
  (total_element_count + kNumBitsPerBitmaskElement - 1) / kNumBitsPerBitmaskElement

/-- Modelled from the spec: the number of input elements selected by the
zero-point condition of CopyOnConditionImpl (the CUDA kernel body is
outside the given sources): the compaction keeps the elements that differ
from the zero-point value. -/
def selectionCount (input : List Int) (zero_point : Int) : Nat :=
  (input.filter (fun v => decide (v ≠ zero_point))).length

/-- The observable outcome of one ZeroPointErase::ComputeInternal call:
the element counts used to allocate the three outputs, and the value of
the local variable d_num_selected_out after the copy-on-condition step.
An Option models the local int: none while it is declared but not yet
written. -/
structure ZPERun where
  out2_alloc_count : Nat
  out0_alloc_count : Option Nat
  d_num_selected_out : Option Nat
  out1_alloc_count : Nat
deriving DecidableEq

/-- Embeds ZeroPointErase::ComputeInternal (zero_point_erase.cc lines
85-124) in program order: allocate output 2 with the input rank (line
93); compute mask_element_count (line 96); declare d_num_selected_out
without initializing it (line 99); query the temp storage size, which
does not touch d_num_selected_out (lines 101-104); allocate output 0
with the value d_num_selected_out holds at that point (line 107); run
the copy-on-condition kernel, the first write to d_num_selected_out
(lines 109-116); allocate output 1 with mask_element_count (line 118). -/
def computeInternal (input : List Int) (rank : Nat) (zero_point : Int) : ZPERun :=
  let total_element_count := input.length
  let out2 := rank
  let mask_count := mask_element_count total_element_count
  let d_num_selected_out : Option Nat := none
  let out0 := d_num_selected_out
  let d_num_selected_out := some (selectionCount input zero_point)
  let out1 := mask_count
  { out2_alloc_count := out2
    out0_alloc_count := out0
    d_num_selected_out := d_num_selected_out
    out1_alloc_count := out1 }

/-! ### Theorems -/

/-! #### Shared helper lemmas -/

theorem writeAll_eq (ws : List (String × Nat)) (c : Cache) :
    writeAll ws c = ws.reverse ++ c := by
  induction ws generalizing c with
  | nil => rfl
  | cons w ws ih =>
    show writeAll ws (w :: c) = (w :: ws).reverse ++ c
    rw [ih]
    simp

theorem runWindow_cache_eq (env : NodeEnv) (flag : Nat → Bool) :
    ∀ (nodes : List Nat) (k : Nat) (c : Cache),
      (runWindow env flag nodes k c).cache
        = (runWindow env flag nodes k c).writeLog.reverse ++ c := by
  intro nodes
  induction nodes with
  | nil =>
    intro k c
    by_cases h : flag k <;> simp [runWindow, h]
  | cons n rest ih =>
    intro k c
    by_cases h : flag k
    · simp [runWindow, h]
    · by_cases hok : (env n).ok
      · simp [runWindow, h, hok, ih, writeAll_eq]
      · simp [runWindow, h, hok]

theorem runWindow_all_ok (env : NodeEnv) (flag : Nat → Bool)
    (hf : ∀ k, flag k = false) :
    ∀ (nodes : List Nat) (k : Nat) (c : Cache),
      (∀ n ∈ nodes, (env n).ok = true) →
      (runWindow env flag nodes k c).dispatched = nodes ∧
        (runWindow env flag nodes k c).status = .OK := by
  intro nodes
  induction nodes with
  | nil =>
    intro k c _
    simp [runWindow, hf]
  | cons n rest ih =>
    intro k c hok
    have hn : (env n).ok = true := hok n (by simp)
    have hr := ih (k + 1) (writeAll (env n).writes c)
      (fun m hm => hok m (by simp [hm]))
    simp [runWindow, hf, hn, hr.1, hr.2]

theorem runWindow_fail (env : NodeEnv) (flag : Nat → Bool)
    (hf : ∀ k, flag k = false) (n : Nat) (hn : (env n).ok = false) :
    ∀ (pre post : List Nat) (k : Nat) (c : Cache),
      (∀ m ∈ pre, (env m).ok = true) →
      (runWindow env flag (pre ++ n :: post) k c).dispatched = pre ∧
        (runWindow env flag (pre ++ n :: post) k c).status = .NodeExecutionFailure n := by
  intro pre
  induction pre with
  | nil =>
    intro post k c _
    simp [runWindow, hf, hn]
  | cons m rest ih =>
    intro post k c hpre
    have hm : (env m).ok = true := hpre m (by simp)
    have hr := ih post (k + 1) (writeAll (env m).writes c)
      (fun x hx => hpre x (by simp [hx]))
    simp [runWindow, hf, hm, hr.1, hr.2]

theorem runWindowR_reads (env : NodeEnv) (flag : Nat → Bool) (c : Cache) :
    ∀ (nodes : List Nat) (k : Nat) (p : String × Option Nat),
      p ∈ (runWindowR env flag c nodes k).readLog → p.2 = c.lookup p.1 := by
  intro nodes
  induction nodes with
  | nil =>
    intro k p hp
    by_cases h : flag k <;> simp [runWindowR, h] at hp
  | cons n rest ih =>
    intro k p hp
    by_cases h : flag k
    · simp [runWindowR, h] at hp
    · by_cases hok : (env n).ok
      · simp only [runWindowR, h, hok, if_false, if_true, Bool.false_eq_true,
          List.mem_append] at hp
        rcases hp with hp | hp
        · obtain ⟨nm, _, rfl⟩ := List.mem_map.mp hp
          rfl
        · exact ih (k + 1) p hp
      · simp [runWindowR, h, hok] at hp

theorem runWindowR_all_ok (env : NodeEnv) (flag : Nat → Bool)
    (hf : ∀ k, flag k = false) (c : Cache) :
    ∀ (nodes : List Nat) (k : Nat),
      (∀ n ∈ nodes, (env n).ok = true) →
      (runWindowR env flag c nodes k).dispatched = nodes ∧
        (runWindowR env flag c nodes k).status = .OK := by
  intro nodes
  induction nodes with
  | nil =>
    intro k _
    simp [runWindowR, hf]
  | cons n rest ih =>
    intro k hok
    have hn : (env n).ok = true := hok n (by simp)
    have hr := ih (k + 1) (fun m hm => hok m (by simp [hm]))
    simp [runWindowR, hf, hn, hr.1, hr.2]

theorem getProgramRegions_ok_state (plan : Plan)
    (st : PartialGraphExecutionState) (ns ne : Nat)
    (h1 : ns ≤ ne) (h2 : ne ≤ plan.node_count) :
    ∃ r st', getProgramRegions plan st ns ne = .ok (r, st') ∧
      st'.program_counter_start = st.program_counter_start ∧
      st'.program_counter_end = st.program_counter_end := by
  have hguard : ¬(ns > ne ∨ ne > plan.node_count) := by
    simp only [not_or, not_lt]
    exact ⟨h1, h2⟩
  cases hfind : st.program_regions.find?
      (fun r => r.node_start == ns && r.node_end == ne) with
  | some r =>
    exact ⟨r, st, by simp [getProgramRegions, hguard, hfind], rfl, rfl⟩
  | none =>
    exact ⟨computeRegion plan ns ne,
      { st with program_regions := st.program_regions ++ [computeRegion plan ns ne] },
      by simp [getProgramRegions, hguard, hfind], rfl, rfl⟩

theorem getProgramRegions_error_eq (plan : Plan)
    (st : PartialGraphExecutionState) (ns ne : Nat) (stat : Status)
    (h : getProgramRegions plan st ns ne = .error stat) :
    stat = .InvalidRange := by
  by_cases hguard : ns > ne ∨ ne > plan.node_count
  · rw [getProgramRegions, if_pos hguard] at h
    injection h with h
    exact h.symm
  · rw [getProgramRegions, if_neg hguard] at h
    cases hfind : st.program_regions.find?
        (fun r => r.node_start == ns && r.node_end == ne) <;>
      simp [hfind] at h

theorem runCore_cache_eq (plan : Plan) (env : NodeEnv) (flag : Nat → Bool)
    (e : Nat) (st : PartialGraphExecutionState) (c : Cache) :
    (runCore plan env flag e st c).cache
      = (runCore plan env flag e st c).writeLog.reverse ++ c := by
  cases hg : getProgramRegions plan st st.program_counter_start e with
  | error stat => simp [runCore, hg]
  | ok pr =>
    obtain ⟨r, st1⟩ := pr
    simpa [runCore, hg] using
      runWindow_cache_eq env flag (windowNodes st.program_counter_start e) 0 c

theorem runCoreR_reads (plan : Plan) (env : NodeEnv) (flag : Nat → Bool)
    (e : Nat) (st : PartialGraphExecutionState) (c : Cache) :
    ∀ p ∈ (runCoreR plan env flag e st c).readLog, p.2 = c.lookup p.1 := by
  intro p hp
  cases hg : getProgramRegions plan st st.program_counter_start e with
  | error stat => simp [runCoreR, hg] at hp
  | ok pr =>
    obtain ⟨r, st1⟩ := pr
    simp only [runCoreR, hg] at hp
    exact runWindowR_reads env flag c (windowNodes st.program_counter_start e) 0 p hp

theorem runCore_all_ok (plan : Plan) (env : NodeEnv) (flag : Nat → Bool)
    (e : Nat) (st : PartialGraphExecutionState) (c : Cache)
    (hf : ∀ k, flag k = false) (hok : ∀ n, (env n).ok = true)
    (hr1 : st.program_counter_start ≤ e) (hr2 : e ≤ plan.node_count) :
    (runCore plan env flag e st c).dispatched
        = windowNodes st.program_counter_start e ∧
      (runCore plan env flag e st c).status = .OK ∧
      (runCore plan env flag e st c).st.program_counter_start = e := by
  obtain ⟨r, st1, hg, -, -⟩ := getProgramRegions_ok_state plan st _ e hr1 hr2
  have hw := runWindow_all_ok env flag hf
    (windowNodes st.program_counter_start e) 0 c (fun n _ => hok n)
  simp [runCore, hg, hw.1, hw.2]

theorem runCoreR_all_ok (plan : Plan) (env : NodeEnv) (flag : Nat → Bool)
    (e : Nat) (st : PartialGraphExecutionState) (c : Cache)
    (hf : ∀ k, flag k = false) (hok : ∀ n, (env n).ok = true)
    (hr1 : st.program_counter_start ≤ e) (hr2 : e ≤ plan.node_count) :
    (runCoreR plan env flag e st c).dispatched
        = windowNodes st.program_counter_start e ∧
      (runCoreR plan env flag e st c).status = .OK := by
  obtain ⟨r, st1, hg, -, -⟩ := getProgramRegions_ok_state plan st _ e hr1 hr2
  have hw := runWindowR_all_ok env flag hf c
    (windowNodes st.program_counter_start e) 0 (fun n _ => hok n)
  simp [runCoreR, hg, hw.1, hw.2]

theorem windowNodes_append (a b c : Nat) (h1 : a ≤ b) (h2 : b ≤ c) :
    windowNodes a b ++ windowNodes b c = windowNodes a c := by
  have h3 : a + 1 * (b - a) = b := by omega
  have h4 : (c - b) + (b - a) = c - a := by omega
  calc windowNodes a b ++ windowNodes b c
      = List.range' a (b - a) 1 ++ List.range' (a + 1 * (b - a)) (c - b) 1 := by
        rw [h3]; rfl
    _ = List.range' a ((c - b) + (b - a)) 1 := List.range'_append a (b - a) (c - b) 1
    _ = windowNodes a c := by rw [h4]; rfl

/-- C2: invoking RunBackward on a state instance that has not completed a
successful forward invocation (a Fresh instance, or one already Failed)
returns InvalidState, dispatches no node, and leaves the step state
untouched. -/
theorem backward_before_forward_invalid_state
    (env : NodeEnv) (flag : Nat → Bool) (ag : TrainingAgent) (s : AgentStep)
    (h : s.phase = .Fresh ∨ s.phase = .Failed) :
    (runBackward env flag ag s).status = .InvalidState ∧
      (runBackward env flag ag s).dispatched = [] ∧
      (runBackward env flag ag s).state = s := by
  have hne : ¬s.phase = .ForwardDone := by
    rcases h with h | h <;> simp [h]
  simp [runBackward, hne]

/-- C2 witness: backward on a freshly created step is rejected. -/
theorem backward_before_forward_invalid_state_witness :
    (runBackward sampleEnv noFlag (mkTrainingAgent samplePlan 2) {}).status
        = .InvalidState ∧
      (runBackward sampleEnv noFlag (mkTrainingAgent samplePlan 2) {}).dispatched = [] ∧
      (runBackward sampleEnv noFlag (mkTrainingAgent samplePlan 2) {}).state = {} :=
  backward_before_forward_invalid_state sampleEnv noFlag
    (mkTrainingAgent samplePlan 2) {} (Or.inl rfl)

/-- C5: a freshly constructed Partial Execution State has
program_counter_start = 0 (the member initializer of
partial_graph_execution_state.h line 50), and a successful invocation
with requested window end `e` leaves program_counter_start = e for the
next invocation. -/
theorem program_counter_start_advances :
    PartialGraphExecutionState.init.program_counter_start = 0 ∧
      ∀ (plan : Plan) (env : NodeEnv) (flag : Nat → Bool) (e : Nat)
        (st : PartialGraphExecutionState) (c : Cache),
        (runCore plan env flag e st c).status = .OK →
        (runCore plan env flag e st c).st.program_counter_start = e := by
  refine ⟨rfl, ?_⟩
  intro plan env flag e st c h
  cases hg : getProgramRegions plan st st.program_counter_start e with
  | error stat =>
    have hstat := getProgramRegions_error_eq plan st _ e stat hg
    rw [hstat] at hg
    simp [runCore, hg] at h
  | ok pr =>
    obtain ⟨r, st1⟩ := pr
    simp only [runCore, hg] at h ⊢
    simp [h]

/-- C5 witness: a successful invocation with requested end 2 on a fresh
state leaves the cursor at 2. -/
theorem program_counter_start_advances_witness :
    (runCore samplePlan sampleEnv noFlag 2
        PartialGraphExecutionState.init []).st.program_counter_start = 2 :=
  program_counter_start_advances.2 samplePlan sampleEnv noFlag 2
    PartialGraphExecutionState.init [] (by decide)

/-- C7: when the termination flag is already set at the first
node-dispatch boundary of an invocation over a well-formed window, the
invocation returns Cancelled, dispatches zero nodes, writes nothing, and
returns the cache exactly as it received it (entries already produced by
an earlier window are not corrupted).  The flag is consulted only at
dispatch boundaries by construction of the dispatch loop. -/
theorem terminate_before_dispatch_cancelled
    (plan : Plan) (env : NodeEnv) (flag : Nat → Bool) (e : Nat)
    (st : PartialGraphExecutionState) (c : Cache)
    (hr1 : st.program_counter_start ≤ e) (hr2 : e ≤ plan.node_count)
    (hflag : flag 0 = true) :
    (runCore plan env flag e st c).status = .Cancelled ∧
      (runCore plan env flag e st c).dispatched = [] ∧
      (runCore plan env flag e st c).writeLog = [] ∧
      (runCore plan env flag e st c).cache = c := by
  obtain ⟨r, st1, hg, -, -⟩ := getProgramRegions_ok_state plan st _ e hr1 hr2
  have hw : runWindow env flag (windowNodes st.program_counter_start e) 0 c
      = { dispatched := [], writeLog := [], cache := c, status := .Cancelled } := by
    cases hnodes : windowNodes st.program_counter_start e with
    | nil => simp [runWindow, hflag]
    | cons n rest => simp [runWindow, hflag]
  simp [runCore, hg, hw]

/-- C7 witness: a pre-set flag cancels an invocation of the window
[0, 4) on the sample plan with zero nodes executed and an untouched
cache. -/
theorem terminate_before_dispatch_cancelled_witness :
    (runCore samplePlan sampleEnv setFlag 4 PartialGraphExecutionState.init
        [("old", 7)]).status = .Cancelled ∧
      (runCore samplePlan sampleEnv setFlag 4 PartialGraphExecutionState.init
        [("old", 7)]).dispatched = [] ∧
      (runCore samplePlan sampleEnv setFlag 4 PartialGraphExecutionState.init
        [("old", 7)]).writeLog = [] ∧
      (runCore samplePlan sampleEnv setFlag 4 PartialGraphExecutionState.init
        [("old", 7)]).cache = [("old", 7)] :=
  terminate_before_dispatch_cancelled samplePlan sampleEnv setFlag 4
    PartialGraphExecutionState.init [("old", 7)] (by decide) (by decide) rfl

/-- C8: when a node's leaf execution fails with a structured error during
a window in which the termination flag never fires and every earlier node
succeeds, the dispatch loop returns NodeExecutionFailure naming that
node, and no node after it in the window is dispatched: the dispatched
list is exactly the prefix before the failing node. -/
theorem node_failure_stops_dispatch
    (env : NodeEnv) (flag : Nat → Bool) (pre post : List Nat) (n : Nat)
    (c : Cache) (hf : ∀ k, flag k = false)
    (hpre : ∀ m ∈ pre, (env m).ok = true) (hn : (env n).ok = false) :
    (runWindow env flag (pre ++ n :: post) 0 c).dispatched = pre ∧
      (runWindow env flag (pre ++ n :: post) 0 c).status
        = .NodeExecutionFailure n :=
  runWindow_fail env flag hf n hn pre post 0 c hpre

/-- C8 witness: with node 1 failing in the window [0, 1, 2], only node 0
is dispatched and the status names node 1. -/
theorem node_failure_stops_dispatch_witness :
    (runWindow sampleFailEnv noFlag ([0] ++ 1 :: [2]) 0 []).dispatched = [0] ∧
      (runWindow sampleFailEnv noFlag ([0] ++ 1 :: [2]) 0 []).status
        = .NodeExecutionFailure 1 :=
  node_failure_stops_dispatch sampleFailEnv noFlag [0] [2] 1 []
    (fun _ => rfl) (by decide) rfl

/-- C4: on a well-formed agent (forward end within the plan,
backward end equal to the plan's node count, per the spec's window
assignment) and a fresh state instance, a RunForward invocation in which
every leaf succeeds and the flag never fires dispatches exactly the
window [0, fw_program_counter_end), the following RunBackward dispatches
exactly [fw_program_counter_end, total_node_count), and the two windows
are complementary over the plan's full node range. -/
theorem forward_backward_windows_complementary
    (env : NodeEnv) (flag : Nat → Bool) (ag : TrainingAgent) (s : AgentStep)
    (c : Cache)
    (hf : ∀ k, flag k = false) (hok : ∀ n, (env n).ok = true)
    (hphase : s.phase = .Fresh) (hstart : s.pes.program_counter_start = 0)
    (hfw : ag.fw_program_counter_end ≤ ag.plan.node_count)
    (hbw : ag.bw_program_counter_end = ag.plan.node_count) :
    (runForward env flag ag s c).dispatched
        = windowNodes 0 ag.fw_program_counter_end ∧
      (runForward env flag ag s c).status = .OK ∧
      (runBackward env flag ag (runForward env flag ag s c).state).dispatched
        = windowNodes ag.fw_program_counter_end ag.plan.node_count ∧
      (runBackward env flag ag (runForward env flag ag s c).state).status = .OK ∧
      windowNodes 0 ag.fw_program_counter_end
          ++ windowNodes ag.fw_program_counter_end ag.plan.node_count
        = windowNodes 0 ag.plan.node_count := by
  have hcore := runCore_all_ok ag.plan env flag ag.fw_program_counter_end
    s.pes c hf hok (by rw [hstart]; exact Nat.zero_le _) hfw
  have hFd : (runForward env flag ag s c).dispatched
      = windowNodes 0 ag.fw_program_counter_end := by
    simpa [runForward, hphase, hstart] using hcore.1
  have hFs : (runForward env flag ag s c).status = .OK := by
    simpa [runForward, hphase] using hcore.2.1
  have hFphase : (runForward env flag ag s c).state.phase = .ForwardDone := by
    simp [runForward, hphase, hcore.2.1]
  have hFpcs : (runForward env flag ag s c).state.pes.program_counter_start
      = ag.fw_program_counter_end := by
    simpa [runForward, hphase] using hcore.2.2
  have hcoreR := runCoreR_all_ok ag.plan env flag ag.bw_program_counter_end
    (runForward env flag ag s c).state.pes (runForward env flag ag s c).state.cache
    hf hok (by rw [hFpcs, hbw]; exact hfw) (by rw [hbw])
  have hBd : (runBackward env flag ag (runForward env flag ag s c).state).dispatched
      = windowNodes ag.fw_program_counter_end ag.plan.node_count := by
    simp only [runBackward, if_pos hFphase]
    rw [hcoreR.1, hFpcs, hbw]
  have hBs : (runBackward env flag ag (runForward env flag ag s c).state).status
      = .OK := by
    simp only [runBackward, if_pos hFphase]
    exact hcoreR.2
  exact ⟨hFd, hFs, hBd, hBs,
    windowNodes_append 0 ag.fw_program_counter_end ag.plan.node_count
      (Nat.zero_le _) hfw⟩

/-- C4 witness: on the sample plan with forward end 2, forward dispatches
[0, 2) and backward dispatches [2, 4), which together cover [0, 4). -/
theorem forward_backward_windows_complementary_witness :
    (runForward sampleEnv noFlag (mkTrainingAgent samplePlan 2) {} []).dispatched
        = windowNodes 0 2 ∧
      (runForward sampleEnv noFlag (mkTrainingAgent samplePlan 2) {} []).status = .OK ∧
      (runBackward sampleEnv noFlag (mkTrainingAgent samplePlan 2)
          (runForward sampleEnv noFlag (mkTrainingAgent samplePlan 2) {} []).state).dispatched
        = windowNodes 2 4 ∧
      (runBackward sampleEnv noFlag (mkTrainingAgent samplePlan 2)
          (runForward sampleEnv noFlag (mkTrainingAgent samplePlan 2) {} []).state).status
        = .OK ∧
      windowNodes 0 2 ++ windowNodes 2 4 = windowNodes 0 4 :=
  forward_backward_windows_complementary sampleEnv noFlag
    (mkTrainingAgent samplePlan 2) {} [] (fun _ => rfl) (fun _ => rfl)
    rfl rfl (by decide) rfl

/-- C1: over a step driven Fresh → forward(success) → backward(success),
every boundary value whose last forward write produced `v` is observed as
`v` by every backward read of that name: the backward window reads
exactly the cache the forward window produced, with no interposed
mutation (the model's only cache writers are forward-window nodes, per
spec section 4.4). -/
theorem forward_backward_cache_frame
    (env : NodeEnv) (flag : Nat → Bool) (ag : TrainingAgent) (s : AgentStep)
    (c : Cache)
    (hphase : s.phase = .Fresh)
    (hfwOK : (runForward env flag ag s c).status = .OK)
    (_hbwOK : (runBackward env flag ag (runForward env flag ag s c).state).status
        = .OK) :
    ∀ nm v w, lastWritten (runForward env flag ag s c).writeLog nm = some v →
      (nm, w) ∈ (runBackward env flag ag (runForward env flag ag s c).state).readLog →
      w = some v := by
  intro nm v w hlast hmem
  simp only [runForward, if_pos hphase] at hfwOK hlast hmem
  simp only [hfwOK, if_pos rfl] at hmem
  simp only [runBackward] at hmem
  have hread := runCoreR_reads ag.plan env flag ag.bw_program_counter_end
    (runCore ag.plan env flag ag.fw_program_counter_end s.pes c).st
    (runCore ag.plan env flag ag.fw_program_counter_end s.pes c).cache
    (nm, w) hmem
  have hcache := runCore_cache_eq ag.plan env flag ag.fw_program_counter_end s.pes c
  rw [hcache] at hread
  rw [lastWritten] at hlast
  rw [List.lookup_append, hlast] at hread
  simpa using hread

/-- C1 witness: on the sample run, forward's write of "act1" = 5 at node
1 is observed unchanged by the backward read at node 3. -/
theorem forward_backward_cache_frame_witness :
    lastWritten (runForward sampleEnv noFlag (mkTrainingAgent samplePlan 2) {} []).writeLog
        "act1" = some 5 ∧
      ("act1", (some 5 : Option Nat)) ∈
        (runBackward sampleEnv noFlag (mkTrainingAgent samplePlan 2)
          (runForward sampleEnv noFlag (mkTrainingAgent samplePlan 2) {} []).state).readLog ∧
      (some 5 : Option Nat) = some 5 :=
  ⟨by decide, by decide,
    forward_backward_cache_frame sampleEnv noFlag (mkTrainingAgent samplePlan 2)
      {} [] rfl (by decide) (by decide) "act1" 5 (some 5) (by decide) (by decide)⟩

/-- C3: for every pair (node_start, node_end) with node_start ≤ node_end,
both within the plan's node count, resolution of the Program Region
succeeds, and repeated resolution is idempotent and deterministic: the
second resolution returns the structurally identical region and leaves the
cursor state unchanged (the plan, being an immutable input, is untouched
by construction). -/
theorem program_region_resolution_idempotent
    (plan : Plan) (st : PartialGraphExecutionState) (ns ne : Nat)
    (h1 : ns ≤ ne) (h2 : ne ≤ plan.node_count) :
    ∃ r st', getProgramRegions plan st ns ne = .ok (r, st') ∧
      getProgramRegions plan st' ns ne = .ok (r, st') := by
  have hguard : ¬(ns > ne ∨ ne > plan.node_count) := by
    simp only [not_or, not_lt]
    exact ⟨h1, h2⟩
  cases hfind : st.program_regions.find?
      (fun r => r.node_start == ns && r.node_end == ne) with
  | some r =>
    refine ⟨r, st, ?_, ?_⟩ <;>
      simp [getProgramRegions, hguard, hfind]
  | none =>
    refine ⟨computeRegion plan ns ne,
      { st with program_regions := st.program_regions ++ [computeRegion plan ns ne] },
      ?_, ?_⟩
    · simp [getProgramRegions, hguard, hfind]
    · simp [getProgramRegions, hguard, List.find?_append, hfind, computeRegion,
        List.find?]

/-- C3 witness: concrete resolution on a two-stream, four-node plan. -/
theorem program_region_resolution_idempotent_witness :
    ∃ r st', getProgramRegions { node_count := 4, streams := [[0, 1], [2, 3]] }
        PartialGraphExecutionState.init 0 2 = .ok (r, st') ∧
      getProgramRegions { node_count := 4, streams := [[0, 1], [2, 3]] }
        st' 0 2 = .ok (r, st') :=
  program_region_resolution_idempotent _ _ 0 2 (by decide) (by decide)

/-- C6: a request with node_start > node_end, or with either bound beyond
the plan's node count, fails Program Region resolution with InvalidRange;
the range is never silently clamped (no .ok result is produced). -/
theorem program_region_invalid_range
    (plan : Plan) (st : PartialGraphExecutionState) (ns ne : Nat)
    (h : ns > ne ∨ ns > plan.node_count ∨ ne > plan.node_count) :
    getProgramRegions plan st ns ne = .error .InvalidRange := by
  have hguard : ns > ne ∨ ne > plan.node_count := by
    rcases h with h | h | h
    · exact Or.inl h
    · rcases Nat.lt_or_ge ne ns with h2 | h2
      · exact Or.inl h2
      · exact Or.inr (lt_of_lt_of_le h h2)
    · exact Or.inr h
  simp only [getProgramRegions]
  rw [if_pos hguard]

/-- C6 witness: requesting the reversed window [3, 1) on a two-node plan
is rejected with InvalidRange. -/
theorem program_region_invalid_range_witness :
    getProgramRegions { node_count := 2, streams := [[0, 1]] }
      PartialGraphExecutionState.init 3 1 = .error .InvalidRange :=
  program_region_invalid_range _ _ 3 1 (Or.inl (by decide))

/-- C9: for every input tensor, ZeroPointErase allocates its mask output
(output index 1) with exactly
(total_element_count + kNumBitsPerBitmaskElement - 1) / kNumBitsPerBitmaskElement
elements, and that value is exactly the ceiling of
total_element_count / kNumBitsPerBitmaskElement: it is the least m with
total_element_count ≤ m * kNumBitsPerBitmaskElement. -/
theorem mask_output_count_is_ceil_div (input : List Int) (rank : Nat) (zp : Int) :
    (computeInternal input rank zp).out1_alloc_count
        = (input.length + kNumBitsPerBitmaskElement - 1) / kNumBitsPerBitmaskElement ∧
      ∀ m : Nat, (computeInternal input rank zp).out1_alloc_count ≤ m ↔
        input.length ≤ m * kNumBitsPerBitmaskElement := by
  refine ⟨rfl, ?_⟩
  intro m
  show mask_element_count input.length ≤ m ↔ _
  unfold mask_element_count kNumBitsPerBitmaskElement
  omega

/-- C10 (code bug): ZeroPointErase::ComputeInternal allocates output 0
(line 107) with the value of d_num_selected_out at a point where the
local int has been declared (line 99) but not yet written — the first
write is the copy-on-condition call at lines 109-116, which happens
after the allocation.  The allocated element count therefore does not
reflect the selection count: for input [1, 0, 2] with zero point 0 the
selection count is 2, yet the allocation reads an indeterminate value. -/
theorem output0_allocated_before_selection_count
    (input : List Int) (rank : Nat) (zp : Int) :
    (computeInternal input rank zp).out0_alloc_count = none ∧
      (computeInternal input rank zp).d_num_selected_out
        = some (selectionCount input zp) ∧
      (computeInternal [1, 0, 2] 1 0).out0_alloc_count
        ≠ some (selectionCount [1, 0, 2] 0) :=
  ⟨rfl, rfl, by decide⟩

end OnnxPartialExec
